import Mathlib

/-!
Shallow embedding of the bytecode compiler and virtual machine from
PoorlyDefinedBehaviour/bytecode_vm_2 (src/value.rs, src/chunk.rs,
src/compiler.rs, src/vm.rs), together with theorems settling the frozen
claims about it.

Modelling conventions:
* Rust `f64` numbers are modelled as exact rationals `ℚ`; every claim under
  study only exercises small integer values, on which IEEE double arithmetic
  is exact, so the abstraction is faithful where it is used.
* A Rust panic (explicit `panic!`, `Option::unwrap` on `None`, or an
  out-of-bounds `Vec` index) is modelled as `Except.error (.panicked msg)`;
  loops are given fuel, whose exhaustion is the distinct outcome
  `Except.error .outOfFuel` (never produced on the concrete runs below).
* `HashMap<String, Value>` is modelled as an association list observed only
  through `lookupGlobal` / `insertGlobal`, the two operations vm.rs uses
  (`get` and `insert`); `VecDeque<Value>` is used by vm.rs only at its back
  (`push_back` / `pop_back` / `back`), so it is modelled as a `List Value`
  whose head is the back (top of stack).
-/

/-- src/value.rs: `enum Value` (Boolean, Number, Identifier, Nil). -/
inductive Value where
  | boolean (b : Bool)
  | number (n : ℚ)
  | identifier (s : String)
  | nil
  deriving DecidableEq, Repr

/-- True exactly for `Value::Number` (the shape matched by vm.rs arithmetic). -/
def Value.isNumber : Value → Bool
  | .number _ => true
  | _ => false

/-- src/chunk.rs: `enum OpCode`. `Constant`, `DefineGlobalVariable` and
`AccessGlobalVariable` carry a `usize` index into the constant pool. -/
inductive OpCode where
  | constant (i : ℕ)
  | defineGlobalVariable (i : ℕ)
  | boolean (b : Bool)
  | accessGlobalVariable (i : ℕ)
  | negate
  | ret
  | add
  | subtract
  | multiply
  | divide
  | nil
  | print
  | pop
  deriving DecidableEq, Repr

/-- src/chunk.rs: `struct Chunk` with parallel `code`, `constants`, `lines`. -/
structure Chunk where
  code : List OpCode
  constants : List Value
  lines : List ℕ
  deriving DecidableEq, Repr

/-- src/chunk.rs: `Chunk::new`. -/
def Chunk.new : Chunk := ⟨[], [], []⟩

/-- src/chunk.rs: `Chunk::write` — push the opcode onto `code` and the line
onto `lines`. -/
def Chunk.write (c : Chunk) (opcode : OpCode) (line : ℕ) : Chunk :=
  { c with code := c.code ++ [opcode], lines := c.lines ++ [line] }

/-- src/chunk.rs: `Chunk::write_constant` — push `value` onto `constants`,
push the line onto `lines`, then push `opcode constant_index` onto `code`,
where `constant_index` is the index the value was just appended at
(`constants.len() - 1` after the push). -/
def Chunk.write_constant (c : Chunk) (opcode : ℕ → OpCode) (value : Value)
    (line : ℕ) : Chunk :=
  { c with
    constants := c.constants ++ [value],
    lines := c.lines ++ [line],
    code := c.code ++ [opcode c.constants.length] }

/-- An opcode is valid against a constant pool of `n` entries when any
constant-pool index it carries is in range. -/
def OpCode.validIn : OpCode → ℕ → Bool
  | .constant i, n => i < n
  | .defineGlobalVariable i, n => i < n
  | .accessGlobalVariable i, n => i < n
  | _, _ => true

/-- A chunk is valid when every instruction's constant-pool index is in
range (the spec's §3 invariant about compiled chunks). -/
def Chunk.valid (c : Chunk) : Bool :=
  c.code.all (·.validIn c.constants.length)

/-- Observable model of `HashMap<String, Value>::get`. -/
def lookupGlobal : List (String × Value) → String → Option Value
  | [], _ => none
  | (k, v) :: rest, n => if k = n then some v else lookupGlobal rest n

/-- Observable model of `HashMap<String, Value>::insert`: replace the
binding of an existing key, otherwise add one. -/
def insertGlobal : List (String × Value) → String → Value → List (String × Value)
  | [], n, v => [(n, v)]
  | (k, w) :: rest, n, v =>
      if k = n then (k, v) :: rest else (k, w) :: insertGlobal rest n v

/-- src/vm.rs: `struct Vm` — instruction pointer, evaluation stack (top
first, see the modelling note), and the global table. -/
structure Vm where
  ip : ℕ
  stack : List Value
  globals : List (String × Value)
  deriving DecidableEq, Repr

/-- src/vm.rs: `Vm::new` — `ip` 0, empty stack, empty globals. -/
def Vm.new : Vm := ⟨0, [], []⟩

/-- src/vm.rs: `enum InterpretResult` (`CompileError` is never produced by
`run` but belongs to the type). -/
inductive InterpretResult where
  | ok (v : Option Value)
  | compileError (msg : String)
  | runtimeError (msg : String)
  deriving DecidableEq, Repr

/-- A Rust panic, or exhaustion of the fuel given to a loop. -/
inductive Panicked where
  | panicked (msg : String)
  | outOfFuel
  deriving DecidableEq, Repr

/-- The panic message of `Option::unwrap` on `None`. -/
def unwrapMsg : String := "called Option::unwrap() on a None value"

/-- The panic message of an out-of-bounds index on a `Vec`. -/
def indexMsg : String := "index out of bounds"

/-- What executing one already-fetched instruction does to the machine. -/
inductive StepOut where
  | next (vm : Vm)
  | halt (r : InterpretResult) (vm : Vm)
  | panicked (msg : String)
  deriving DecidableEq, Repr

/-- Modelled from the spec: the body of vm.rs's
`OpCode::AccessGlobalVariable` arm. As committed, that arm does not
type-check (it passes the opcode's `usize` operand as the key of the
`String`-keyed `globals` map), so the well-typed behaviour is absent from
the sources; §4.3 of the spec supplies it: resolve the operand in the
constant pool to an identifier, look that name up in the global table,
and either fail with "undefined variable `<name>`" or push a clone of the
bound value. -/
def Vm.accessGlobal (vm : Vm) (chunk : Chunk) (i : ℕ) : StepOut :=
  match chunk.constants[i]? with
  | none => .panicked indexMsg
  | some (Value.identifier name) =>
      match lookupGlobal vm.globals name with
      | none => .halt (.runtimeError ("undefined variable " ++ name)) vm
      | some v => .next { vm with stack := v :: vm.stack }
  | some _ => .panicked indexMsg

/-- src/vm.rs: one arm of the `match instruction` in `Vm::run`. The `vm`
argument already has `ip` incremented, as in the source (`self.ip += 1`
precedes the match). -/
def Vm.step (vm : Vm) (chunk : Chunk) (instruction : OpCode) : StepOut :=
  match instruction with
  | .ret =>
      .halt (.ok vm.stack.head?) { vm with stack := vm.stack.tail }
  | .constant i =>
      match chunk.constants[i]? with
      | none => .panicked indexMsg
      | some v => .next { vm with stack := v :: vm.stack }
  | .negate =>
      match vm.stack with
      | [] => .panicked unwrapMsg
      | Value.number n :: rest => .next { vm with stack := .number (-n) :: rest }
      | _ :: _ => .panicked "Operand must be a number"
  | .add =>
      match vm.stack with
      | b :: a :: rest =>
          match a, b with
          | Value.number x, Value.number y =>
              .next { vm with stack := .number (x + y) :: rest }
          | _, _ => .panicked "Operands must be numbers"
      | _ => .panicked unwrapMsg
  | .subtract =>
      match vm.stack with
      | b :: a :: rest =>
          match a, b with
          | Value.number x, Value.number y =>
              .next { vm with stack := .number (x - y) :: rest }
          | _, _ => .panicked "Operands must be numbers"
      | _ => .panicked unwrapMsg
  | .multiply =>
      match vm.stack with
      | b :: a :: rest =>
          match a, b with
          | Value.number x, Value.number y =>
              .next { vm with stack := .number (x * y) :: rest }
          | _, _ => .panicked "Operands must be numbers"
      | _ => .panicked unwrapMsg
  | .divide =>
      match vm.stack with
      | b :: a :: rest =>
          match a, b with
          | Value.number x, Value.number y =>
              .next { vm with stack := .number (x / y) :: rest }
          | _, _ => .panicked "Operands must be numbers"
      | _ => .panicked unwrapMsg
  | .nil => .next { vm with stack := .nil :: vm.stack }
  | .boolean b => .next { vm with stack := .boolean b :: vm.stack }
  | .print =>
      match vm.stack with
      | [] => .panicked unwrapMsg
      | _ :: rest => .next { vm with stack := rest }
  | .pop => .next { vm with stack := vm.stack.tail }
  | .defineGlobalVariable i =>
      match chunk.constants[i]? with
      | none => .panicked indexMsg
      | some (Value.identifier name) =>
          match vm.stack with
          | [] => .panicked unwrapMsg
          | v :: rest =>
              .next { vm with
                stack := rest,
                globals := insertGlobal vm.globals name v }
      | some _ => .panicked "expected global variable name"
  | .accessGlobalVariable i => vm.accessGlobal chunk i

/-- src/vm.rs: the `while self.ip < chunk.code.len()` loop of `Vm::run`,
with fuel. Falling off the end returns `Ok(self.stack.pop_back())`. -/
def Vm.runLoop : ℕ → Vm → Chunk → Except Panicked (InterpretResult × Vm)
  | 0, _, _ => .error .outOfFuel
  | fuel + 1, vm, chunk =>
      match chunk.code[vm.ip]? with
      | none => .ok (.ok vm.stack.head?, { vm with stack := vm.stack.tail })
      | some instruction =>
          match Vm.step { vm with ip := vm.ip + 1 } chunk instruction with
          | .next vm' => Vm.runLoop fuel vm' chunk
          | .halt r vm' => .ok (r, vm')
          | .panicked msg => .error (.panicked msg)

/-- src/vm.rs: `Vm::run`. Note that it does not reset `self.ip`: the loop
starts from whatever `ip` the receiver already holds. -/
def Vm.run (fuel : ℕ) (vm : Vm) (chunk : Chunk) :
    Except Panicked (InterpretResult × Vm) :=
  Vm.runLoop fuel vm chunk

example : Vm.run 9 Vm.new ⟨[.nil, .ret], [], [1, 1]⟩ =
    .ok (.ok (some .nil), ⟨2, [], []⟩) := rfl

/-- src/lexer.rs (source positions attached to every token). -/
structure SourceLocation where
  line : ℕ
  column : ℕ
  deriving DecidableEq, Repr

/-- Modelled from the spec: `enum Token` lives in src/token.rs, which
main.rs declares (`pub mod token`) but which is absent from the sources;
the variants are the ones the spec's §6 token contract names and that
lexer.rs constructs and compiler.rs matches (`Function` is the keyword
`fn`, `ret` the keyword `return`). -/
inductive Token where
  | semicolon
  | leftParen
  | rightParen
  | comma
  | plus
  | minus
  | leftBrace
  | rightBrace
  | leftBracket
  | rightBracket
  | star
  | slash
  | greaterThan
  | greaterThanOrEqual
  | lessThan
  | lessThanOrEqual
  | bang
  | notEqual
  | equal
  | assign
  | str (s : String)
  | number (s : String)
  | identifier (s : String)
  | let_
  | print
  | if_
  | else_
  | function
  | for_
  | while_
  | ret
  | class_
  | or
  | and
  | dot
  | true_
  | false_
  | nil
  | eof
  | illegal (c : Char)
  deriving DecidableEq, Repr

/-- `std::mem::discriminant` equality on tokens: same variant, payloads
ignored (the comparison `consume` and the two dispatch tables use). -/
def Token.sameKind (a b : Token) : Bool :=
  match a, b with
  | .str _, .str _ => true
  | .number _, .number _ => true
  | .identifier _, .identifier _ => true
  | .illegal _, .illegal _ => true
  | a, b => a == b

/-- Value of a decimal digit character. -/
def digitVal (ch : Char) : Option ℕ :=
  if ch.isDigit then some (ch.toNat - 48) else none

/-- Left-to-right accumulation of a digit string's value. -/
def digitsVal : List Char → ℕ → Option ℕ
  | [], acc => some acc
  | ch :: rest, acc =>
      match digitVal ch with
      | none => none
      | some d => digitsVal rest (acc * 10 + d)

/-- `lexeme.parse::<f64>()` on the lexemes the scanner produces (digits,
optionally a dot and more digits), modelled as the exact rational value of
the decimal text; `none` models a conversion error. Every lexeme the
claims exercise is a small integer, on which f64 conversion is exact. -/
def parseNumber (s : String) : Option ℚ :=
  match s.toList.span (·.isDigit) with
  | (intPart, []) =>
      if intPart.isEmpty then none
      else (digitsVal intPart 0).map (fun n => (n : ℚ))
  | (intPart, '.' :: fracPart) =>
      if intPart.isEmpty || fracPart.isEmpty then none
      else
        match digitsVal intPart 0, digitsVal fracPart 0 with
        | some i, some f =>
            some ((i : ℚ) + (f : ℚ) / ((10 : ℚ) ^ fracPart.length))
        | _, _ => none
  | _ => none

/-- src/compiler.rs: the `Precedences` constants (`type Precedence = i32`). -/
def Precedences.NONE : Int := 1

def Precedences.ASSIGNMENT : Int := 2

def Precedences.OR : Int := 3

def Precedences.AND : Int := 4

def Precedences.EQUALITY : Int := 5

def Precedences.COMPARISON : Int := 6

def Precedences.TERM : Int := 7

def Precedences.FACTOR : Int := 8

def Precedences.UNARY : Int := 9

def Precedences.CALL : Int := 10

def Precedences.PRIMARY : Int := 11

/-- src/compiler.rs: `token_precedence`. -/
def token_precedence : Token → Int
  | .assign => Precedences.ASSIGNMENT
  | .or => Precedences.OR
  | .and => Precedences.AND
  | .equal | .notEqual => Precedences.EQUALITY
  | .greaterThan | .lessThan | .greaterThanOrEqual | .lessThanOrEqual =>
      Precedences.COMPARISON
  | .plus | .minus => Precedences.TERM
  | .star | .slash => Precedences.FACTOR
  | .dot => Precedences.CALL
  | _ => Precedences.NONE

/-- The prefix parselets registered in `Compiler::new` (`Compiler::literal`
for the literal tokens, `Compiler::variable` for identifiers; the source's
`number`, `unary` and `grouping` functions are registered in neither table,
so they are unreachable and not part of the embedding). -/
inductive Parselet where
  | literal
  | variableRef
  deriving DecidableEq, Repr

/-- src/compiler.rs: the `prefix_parselets` map of `Compiler::new`, keyed by
token discriminant. -/
def prefix_parselets : Token → Option Parselet
  | .true_ => some .literal
  | .false_ => some .literal
  | .nil => some .literal
  | .number _ => some .literal
  | .identifier _ => some .variableRef
  | _ => none

/-- src/compiler.rs: the `infix_parselets` map of `Compiler::new`: only
`Token::Plus` is registered (to `Compiler::binary`). -/
def infix_parselets : Token → Option Unit
  | .plus => some ()
  | _ => none

/-- src/compiler.rs: `struct Compiler` (the two parselet tables are the
immutable maps above, so they are not part of the mutable state). -/
structure Compiler where
  tokens : List (Token × SourceLocation)
  position : ℕ
  is_in_error_state : Bool
  chunk : Chunk
  deriving DecidableEq, Repr

/-- src/compiler.rs: `Compiler::new`. -/
def Compiler.new : Compiler := ⟨[], 0, false, Chunk.new⟩

/-- src/compiler.rs: `Compiler::reset` — clears the cursor and the error
flag; the chunk is left as it is. -/
def Compiler.reset (c : Compiler) : Compiler :=
  { c with position := 0, is_in_error_state := false }

/-- src/compiler.rs: `Compiler::error` — on the first error set the flag
(the printed message is not part of the state); later errors are
suppressed while the flag is set. -/
def Compiler.error (c : Compiler) (_msg : String) : Compiler :=
  if c.is_in_error_state then c else { c with is_in_error_state := true }

/-- src/compiler.rs: `Compiler::advance`. -/
def Compiler.advance (c : Compiler) : Compiler :=
  { c with position := c.position + 1 }

/-- `self.chunk.write(opcode, line)` as a compiler-state update. -/
def Compiler.emit (c : Compiler) (op : OpCode) (line : ℕ) : Compiler :=
  { c with chunk := c.chunk.write op line }

/-- `self.chunk.write_constant(f, v, line)` as a compiler-state update. -/
def Compiler.emitConstant (c : Compiler) (f : ℕ → OpCode) (v : Value)
    (line : ℕ) : Compiler :=
  { c with chunk := c.chunk.write_constant f v line }

/-- src/compiler.rs: `Compiler::consume` — index the token stream (a Rust
`Vec` index, panicking when out of bounds), compare discriminants; on a
match advance and return the token, otherwise set the error flag and do
not advance (`None`). -/
def Compiler.consume (c : Compiler) (expected : Token) :
    Except Panicked (Option (Token × SourceLocation) × Compiler) :=
  match c.tokens[c.position]? with
  | none => .error (.panicked indexMsg)
  | some (token, _location) =>
      if Token.sameKind token expected then
        .ok (some (token, _location), { c with position := c.position + 1 })
      else
        .ok (none, c.error "unexpected token")

/-- src/compiler.rs: `Compiler::consume_current_token`. -/
def Compiler.consume_current_token (c : Compiler) :
    Except Panicked ((Token × SourceLocation) × Compiler) :=
  match c.tokens[c.position]? with
  | none => .error (.panicked indexMsg)
  | some tl => .ok (tl, { c with position := c.position + 1 })

/-- src/compiler.rs: `Compiler::literal` — consume the current token and
emit the matching literal instruction; a number lexeme is converted (the
f64 conversion modelled exactly over ℚ) and loaded through the constant
pool, and conversion failure or a non-literal token panics. -/
def Compiler.literal (c : Compiler) : Except Panicked Compiler :=
  match Compiler.consume_current_token c with
  | .error e => .error e
  | .ok ((token, location), c) =>
      match token with
      | .false_ => .ok (c.emit (.boolean false) location.line)
      | .true_ => .ok (c.emit (.boolean true) location.line)
      | .nil => .ok (c.emit .nil location.line)
      | .number lexeme =>
          match parseNumber lexeme with
          | some q => .ok (c.emitConstant OpCode.constant (.number q) location.line)
          | none => .error (.panicked "invalid number literal")
      | _ => .error (.panicked "unexpected token")

/-- src/compiler.rs: `Compiler::variable` — consume the identifier and emit
an access-global instruction whose constant is the identifier. -/
def Compiler.variableRef (c : Compiler) : Except Panicked Compiler :=
  match Compiler.consume_current_token c with
  | .error e => .error e
  | .ok ((token, location), c) =>
      match token with
      | .identifier name =>
          .ok (c.emitConstant OpCode.accessGlobalVariable (.identifier name)
            location.line)
      | _ => .error (.panicked "unexpected token")

/-- Dispatch through the prefix table's function pointers. -/
def runParselet : Parselet → Compiler → Except Panicked Compiler
  | .literal, c => Compiler.literal c
  | .variableRef, c => Compiler.variableRef c

mutual

/-- src/compiler.rs: `Compiler::parse_precedence` — look up the current
token's prefix parselet (a missing one is the "expected expression" error,
which sets the flag and returns), run it, then run the infix loop. -/
def Compiler.parse_precedence : ℕ → Int → Compiler → Except Panicked Compiler
  | 0, _, _ => .error .outOfFuel
  | fuel + 1, precedence, c =>
      match c.tokens[c.position]? with
      | none => .error (.panicked indexMsg)
      | some (t, _) =>
          match prefix_parselets t with
          | none => .ok (c.error "expected expression")
          | some p =>
              match runParselet p c with
              | .error e => .error e
              | .ok c => Compiler.infixLoop fuel precedence c

/-- src/compiler.rs: the `while precedence <= token_precedence(...)` loop
of `parse_precedence`; the infix-table lookup is followed by `.unwrap()`,
which panics for every operator token other than `+` (the only registered
one). -/
def Compiler.infixLoop : ℕ → Int → Compiler → Except Panicked Compiler
  | 0, _, _ => .error .outOfFuel
  | fuel + 1, precedence, c =>
      match c.tokens[c.position]? with
      | none => .error (.panicked indexMsg)
      | some (t, _) =>
          if precedence ≤ token_precedence t then
            match infix_parselets t with
            | none => .error (.panicked unwrapMsg)
            | some _ =>
                match Compiler.binary fuel c with
                | .error e => .error e
                | .ok c => Compiler.infixLoop fuel precedence c
          else .ok c

/-- src/compiler.rs: `Compiler::binary` — consume the operator, parse the
right operand at the operator's own precedence (`TERM` for `+`/`-`,
`FACTOR` for `*`/`/`), then emit the matching arithmetic opcode. -/
def Compiler.binary : ℕ → Compiler → Except Panicked Compiler
  | 0, _ => .error .outOfFuel
  | fuel + 1, c =>
      match Compiler.consume_current_token c with
      | .error e => .error e
      | .ok ((token, location), c) =>
          match token with
          | .plus =>
              match Compiler.parse_precedence fuel Precedences.TERM c with
              | .error e => .error e
              | .ok c => .ok (c.emit .add location.line)
          | .minus =>
              match Compiler.parse_precedence fuel Precedences.TERM c with
              | .error e => .error e
              | .ok c => .ok (c.emit .subtract location.line)
          | .slash =>
              match Compiler.parse_precedence fuel Precedences.FACTOR c with
              | .error e => .error e
              | .ok c => .ok (c.emit .divide location.line)
          | .star =>
              match Compiler.parse_precedence fuel Precedences.FACTOR c with
              | .error e => .error e
              | .ok c => .ok (c.emit .multiply location.line)
          | _ => .error (.panicked "unexpected token")

end

/-- src/compiler.rs: `Compiler::expression` =
`parse_precedence(ASSIGNMENT)`. -/
def Compiler.expression (fuel : ℕ) (c : Compiler) : Except Panicked Compiler :=
  Compiler.parse_precedence fuel Precedences.ASSIGNMENT c

/-- src/compiler.rs: `Compiler::print_statement` — consume `print` (the
returned option is ignored), compile an expression, then emit the print
opcode at the now-current token's line. -/
def Compiler.print_statement (fuel : ℕ) (c : Compiler) :
    Except Panicked Compiler :=
  match c.consume .print with
  | .error e => .error e
  | .ok (_, c) =>
      match Compiler.expression fuel c with
      | .error e => .error e
      | .ok c =>
          match c.tokens[c.position]? with
          | none => .error (.panicked indexMsg)
          | some (_, location) => .ok (c.emit .print location.line)

/-- src/compiler.rs: `Compiler::expression_statement` — compile an
expression, then emit pop at the now-current token's line. -/
def Compiler.expression_statement (fuel : ℕ) (c : Compiler) :
    Except Panicked Compiler :=
  match Compiler.expression fuel c with
  | .error e => .error e
  | .ok c =>
      match c.tokens[c.position]? with
      | none => .error (.panicked indexMsg)
      | some (_, location) => .ok (c.emit .pop location.line)

/-- src/compiler.rs: `Compiler::let_declaration` — consume `let` (result
ignored), then, only when an identifier is successfully consumed, consume
`=` (result ignored), compile the initializer and emit a define-global
instruction carrying the identifier. -/
def Compiler.let_declaration (fuel : ℕ) (c : Compiler) :
    Except Panicked Compiler :=
  match c.consume .let_ with
  | .error e => .error e
  | .ok (_, c) =>
      match c.consume (.identifier "any_identifier") with
      | .error e => .error e
      | .ok (some (.identifier name, location), c) =>
          match c.consume .assign with
          | .error e => .error e
          | .ok (_, c) =>
              match Compiler.expression fuel c with
              | .error e => .error e
              | .ok c =>
                  .ok (c.emitConstant OpCode.defineGlobalVariable
                    (.identifier name) location.line)
      | .ok (_, c) => .ok c

/-- src/compiler.rs: the loop of `Compiler::synchronize` — skip tokens
until a statement-boundary keyword or end of input. -/
def Compiler.synchronizeLoop : ℕ → Compiler → Except Panicked Compiler
  | 0, _ => .error .outOfFuel
  | fuel + 1, c =>
      match c.tokens[c.position]? with
      | none => .error (.panicked indexMsg)
      | some (t, _) =>
          match t with
          | .eof | .class_ | .function | .let_ | .for_ | .if_ | .while_
          | .print | .ret => .ok c
          | _ => Compiler.synchronizeLoop fuel c.advance

/-- src/compiler.rs: `Compiler::synchronize` — clear the error flag, then
skip to the next statement boundary. -/
def Compiler.synchronize (fuel : ℕ) (c : Compiler) :
    Except Panicked Compiler :=
  Compiler.synchronizeLoop fuel { c with is_in_error_state := false }

/-- src/compiler.rs: the `loop` of `Compiler::compile` — synchronize first
when the error flag is set, then dispatch on the current token; at `Eof`
return a clone of the accumulated chunk (the compiler keeps its chunk). -/
def Compiler.compileLoop : ℕ → Compiler → Except Panicked (Chunk × Compiler)
  | 0, _ => .error .outOfFuel
  | fuel + 1, c =>
      match (if c.is_in_error_state then Compiler.synchronize fuel c
             else .ok c) with
      | .error e => .error e
      | .ok c =>
          match c.tokens[c.position]? with
          | none => .error (.panicked indexMsg)
          | some (t, _) =>
              match t with
              | .eof => .ok (c.chunk, c)
              | .print =>
                  match Compiler.print_statement fuel c with
                  | .error e => .error e
                  | .ok c => Compiler.compileLoop fuel c
              | .let_ =>
                  match Compiler.let_declaration fuel c with
                  | .error e => .error e
                  | .ok c => Compiler.compileLoop fuel c
              | .illegal _ => .error (.panicked "illegal character")
              | _ =>
                  match Compiler.expression_statement fuel c with
                  | .error e => .error e
                  | .ok c => Compiler.compileLoop fuel c

/-- src/compiler.rs: `Compiler::compile` — `reset`, install the new token
stream, and run the statement loop; returns the chunk together with the
compiler's retained state. -/
def Compiler.compile (fuel : ℕ) (tokens : List (Token × SourceLocation))
    (c : Compiler) : Except Panicked (Chunk × Compiler) :=
  Compiler.compileLoop fuel { Compiler.reset c with tokens := tokens }

/-- Whether a run returned at all (as opposed to panicking or running out
of fuel). -/
def runReturned : Except Panicked (InterpretResult × Vm) → Bool
  | .ok _ => true
  | .error _ => false

/-- A shared source location for the concrete token streams below (every
claim under study is insensitive to positions). -/
def loc1 : SourceLocation := ⟨1, 1⟩

/-- The token stream of the source text `1 + 2 * 3`. -/
def tokens123 : List (Token × SourceLocation) :=
  [(.number "1", loc1), (.plus, loc1), (.number "2", loc1), (.star, loc1),
   (.number "3", loc1), (.eof, loc1)]

/-- The token stream of the source text `1 + 2 + 3`. -/
def tokensPlusPlus : List (Token × SourceLocation) :=
  [(.number "1", loc1), (.plus, loc1), (.number "2", loc1), (.plus, loc1),
   (.number "3", loc1), (.eof, loc1)]

/-- The token stream of the source text `true`. -/
def tokensTrue : List (Token × SourceLocation) := [(.true_, loc1), (.eof, loc1)]

/-- The token stream of the source text `false`. -/
def tokensFalse : List (Token × SourceLocation) := [(.false_, loc1), (.eof, loc1)]

/-- A chunk holding the single instruction `Nil`. -/
def chunkNil : Chunk := ⟨[.nil], [], [1]⟩

/-- A chunk holding the single instruction `Boolean(true)`. -/
def chunkBoolTrue : Chunk := ⟨[.boolean true], [], [1]⟩

/-- A chunk applying `Add` to `Nil` operands (a type error at runtime). -/
def chunkAddNils : Chunk := ⟨[.nil, .nil, .add], [], [1, 1, 1]⟩

/-- A chunk whose single `Add` finds an empty stack (stack underflow). -/
def chunkAddEmpty : Chunk := ⟨[.add], [], [1]⟩

/-- A chunk that reads the global `x` and prints it. -/
def chunkAccessX : Chunk := ⟨[.accessGlobalVariable 0], [.identifier "x"], [1]⟩

/-- The compiler state after compiling `tokensTrue` from a fresh compiler
(cursor on `Eof`, no error, chunk retained). -/
def compilerAfterTrue : Compiler :=
  ⟨tokensTrue, 1, false, ⟨[.boolean true, .pop], [], [1, 1]⟩⟩

/-- A chunk holding the single instruction `Negate`. -/
def chunkNegate : Chunk := ⟨[.negate], [], [1]⟩

/-- A chunk defining the global `x` from the top of the stack. -/
def chunkDefineX : Chunk := ⟨[.defineGlobalVariable 0], [.identifier "x"], [1]⟩

/-- The token stream of the source text `1 - 2 - 3`. -/
def tokensMinus : List (Token × SourceLocation) :=
  [(.number "1", loc1), (.minus, loc1), (.number "2", loc1), (.minus, loc1),
   (.number "3", loc1), (.eof, loc1)]

/-- The chunk the compiler produces for `1 + 2 + 3`: postfix `1 2 3 + +`
followed by the expression statement's pop. -/
def chunkPlusPlus : Chunk :=
  ⟨[.constant 0, .constant 1, .constant 2, .add, .add, .pop],
   [.number 1, .number 2, .number 3], [1, 1, 1, 1, 1, 1]⟩

/-- The compiler state after compiling `tokensPlusPlus` from fresh. -/
def compilerAfterPlusPlus : Compiler := ⟨tokensPlusPlus, 5, false, chunkPlusPlus⟩

/-- The chunk after compiling `tokensTrue` and then `tokensFalse` on the
same compiler: the second compilation's instructions are appended after
the first's. -/
def chunkTrueFalse : Chunk :=
  ⟨[.boolean true, .pop, .boolean false, .pop], [], [1, 1, 1, 1]⟩

/-- The compiler state after the two compilations above. -/
def compilerAfterTrueFalse : Compiler := ⟨tokensFalse, 1, false, chunkTrueFalse⟩

/-- Chunk growth between two compiler states: the chunk only gains
instructions and constants, and stays valid if it was. -/
def CExt (c c' : Compiler) : Prop :=
  c.chunk.code <+: c'.chunk.code ∧
  c.chunk.constants <+: c'.chunk.constants ∧
  (c.chunk.valid = true → c'.chunk.valid = true)

example : Compiler.compile 32 tokensTrue Compiler.new =
    .ok (⟨[.boolean true, .pop], [], [1, 1]⟩, compilerAfterTrue) := rfl


/-! ## Helper lemmas about the global table and chunk validity -/

theorem lookupGlobal_insert_self (g : List (String × Value)) (n : String)
    (v : Value) : lookupGlobal (insertGlobal g n v) n = some v := by
  induction g with
  | nil => simp [insertGlobal, lookupGlobal]
  | cons kv rest ih =>
      obtain ⟨k, w⟩ := kv
      by_cases hk : k = n <;> simp [insertGlobal, lookupGlobal, hk, ih]

theorem lookupGlobal_insert_ne (g : List (String × Value)) (n m : String)
    (v : Value) (hm : m ≠ n) :
    lookupGlobal (insertGlobal g n v) m = lookupGlobal g m := by
  have hnm : n ≠ m := fun h => hm h.symm
  induction g with
  | nil => simp [insertGlobal, lookupGlobal, hnm]
  | cons kv rest ih =>
      obtain ⟨k, w⟩ := kv
      by_cases hk : k = n
      · subst hk
        simp [insertGlobal, lookupGlobal, hnm]
      · simp [insertGlobal, lookupGlobal, hk, ih]

theorem OpCode.validIn_mono {op : OpCode} {n m : ℕ} (h : op.validIn n = true)
    (hnm : n ≤ m) : op.validIn m = true := by
  cases op <;> simp_all [OpCode.validIn] <;> omega

theorem Chunk.valid_write {c : Chunk} {op : OpCode} {line : ℕ}
    (hc : c.valid = true) (hop : op.validIn c.constants.length = true) :
    (c.write op line).valid = true := by
  simp only [Chunk.valid, Chunk.write, List.all_append, Bool.and_eq_true,
    List.all_cons, List.all_nil, Bool.and_true] at *
  exact ⟨hc, hop⟩

theorem Chunk.valid_write_constant {c : Chunk} {f : ℕ → OpCode} {v : Value}
    {line : ℕ} (hc : c.valid = true)
    (hf : (f c.constants.length).validIn (c.constants.length + 1) = true) :
    (c.write_constant f v line).valid = true := by
  simp only [Chunk.valid, Chunk.write_constant, List.all_append,
    Bool.and_eq_true, List.all_cons, List.all_nil, Bool.and_true,
    List.length_append, List.length_cons, List.length_nil] at *
  refine ⟨?_, hf⟩
  rw [List.all_eq_true] at hc ⊢
  intro op hop
  exact OpCode.validIn_mono (hc op hop) (by omega)

theorem Vm.step_next_ip {vm : Vm} {chunk : Chunk} {op : OpCode} {vm' : Vm}
    (h : Vm.step vm chunk op = .next vm') : vm'.ip = vm.ip := by
  cases op <;> simp only [Vm.step, Vm.accessGlobal] at h <;> repeat' split at h
  all_goals first
    | (cases h; rfl)
    | cases h

theorem Vm.step_halt_ip {vm : Vm} {chunk : Chunk} {op : OpCode}
    {r : InterpretResult} {vm' : Vm}
    (h : Vm.step vm chunk op = .halt r vm') : vm'.ip = vm.ip := by
  cases op <;> simp only [Vm.step, Vm.accessGlobal] at h <;> repeat' split at h
  all_goals first
    | (cases h; rfl)
    | cases h

theorem Vm.runLoop_ip_mono : ∀ (fuel : ℕ) (vm : Vm) (chunk : Chunk)
    (r : InterpretResult) (vm' : Vm),
    Vm.runLoop fuel vm chunk = .ok (r, vm') → vm.ip ≤ vm'.ip := by
  intro fuel
  induction fuel with
  | zero => intro vm chunk r vm' h; cases h
  | succ fuel ih =>
      intro vm chunk r vm' h
      unfold Vm.runLoop at h
      split at h
      · cases h
        exact le_refl _
      · split at h
        · have hip := Vm.step_next_ip (by assumption)
          have := ih _ chunk r vm' h
          simp at hip
          omega
        · cases h
          have hip := Vm.step_halt_ip (by assumption)
          simp at hip
          omega
        · cases h

/-! ## Claim theorems -/

/-- C1: the claim expects `1 + 2 * 3` to compile to the postfix order
`1 2 3 * +` and run to 7; on the code, compilation panics instead —
`parse_precedence` unwraps the missing infix-table entry for `*` (only `+`
is registered), so no chunk is produced at all. -/
theorem c1_compile_1_plus_2_times_3_panics :
    Compiler.compile 32 tokens123 Compiler.new = .error (.panicked unwrapMsg) := rfl

/-- C2 (counterexample): after a run of a one-instruction chunk, the same
`Vm` value has `ip = 1`; a second `run` against a fresh one-instruction
chunk executes nothing and yields `Ok(None)`, while starting at
`chunk.code[0]` would have pushed and returned `Boolean(true)`. -/
theorem c2_counterexample_second_run_not_from_zero :
    Vm.run 9 Vm.new chunkNil = .ok (.ok (some .nil), ⟨1, [], []⟩) ∧
    Vm.run 9 (⟨1, [], []⟩ : Vm) chunkBoolTrue = .ok (.ok none, ⟨1, [], []⟩) ∧
    InterpretResult.ok none ≠ InterpretResult.ok (some (.boolean true)) :=
  ⟨rfl, rfl, by decide⟩

/-- C2 (amended): `Vm::run` resumes from the receiver's persisted
instruction pointer rather than index 0: a fresh `Vm` has `ip = 0`; when
`ip` is already past the end of the given chunk's code the run executes no
instruction and returns `Ok(pop)`; and a run never moves `ip` backwards,
so a later run starts where the previous one stopped. -/
theorem c2_run_resumes_at_persisted_ip :
    Vm.new.ip = 0 ∧
    (∀ (fuel : ℕ) (vm : Vm) (chunk : Chunk),
      chunk.code[vm.ip]? = none →
      Vm.run (fuel + 1) vm chunk =
        .ok (.ok vm.stack.head?, { vm with stack := vm.stack.tail })) ∧
    (∀ (fuel : ℕ) (vm : Vm) (chunk : Chunk) (r : InterpretResult) (vm' : Vm),
      Vm.run fuel vm chunk = .ok (r, vm') → vm.ip ≤ vm'.ip) := by
  refine ⟨rfl, ?_, ?_⟩
  · intro fuel vm chunk h
    simp [Vm.run, Vm.runLoop, h]
  · intro fuel vm chunk r vm' h
    exact Vm.runLoop_ip_mono fuel vm chunk r vm' h

/-- C2 (witness): the amended theorem applied to a reused `Vm` whose `ip`
is already 1 and a one-instruction chunk. -/
theorem c2_witness :
    Vm.run 3 (⟨1, [], []⟩ : Vm) chunkBoolTrue = .ok (.ok none, ⟨1, [], []⟩) ∧
    Vm.new.ip = 0 :=
  ⟨c2_run_resumes_at_persisted_ip.2.1 2 ⟨1, [], []⟩ chunkBoolTrue rfl,
   c2_run_resumes_at_persisted_ip.1⟩

/-- C3: behaviour of the access-global arm on the spec's (well-typed)
semantics — the committed arm itself does not type-check, see
`Vm.accessGlobal`. When the name is absent the run stops with the
"undefined variable" runtime error; when it is present a clone of the
bound value is pushed (and, the chunk ending there, returned). -/
theorem c3_access_global_spec_model (g : List (String × Value)) (v : Value)
    (fuel : ℕ) :
    (lookupGlobal g "x" = none →
      Vm.run (fuel + 2) ⟨0, [], g⟩ chunkAccessX =
        .ok (.runtimeError ("undefined variable " ++ "x"), ⟨1, [], g⟩)) ∧
    (lookupGlobal g "x" = some v →
      Vm.run (fuel + 2) ⟨0, [], g⟩ chunkAccessX =
        .ok (.ok (some v), ⟨1, [], g⟩)) := by
  constructor
  · intro h
    simp [Vm.run, Vm.runLoop, chunkAccessX, Vm.step, Vm.accessGlobal, h]
  · intro h
    simp [Vm.run, Vm.runLoop, chunkAccessX, Vm.step, Vm.accessGlobal, h]

/-- C3 (witness): the model theorem applied to an empty and to a
one-binding global table. -/
theorem c3_spec_model_witness :
    Vm.run 2 (⟨0, [], []⟩ : Vm) chunkAccessX =
      .ok (.runtimeError ("undefined variable " ++ "x"), ⟨1, [], []⟩) ∧
    Vm.run 2 (⟨0, [], [("x", Value.number 5)]⟩ : Vm) chunkAccessX =
      .ok (.ok (some (Value.number 5)), ⟨1, [], [("x", Value.number 5)]⟩) :=
  ⟨(c3_access_global_spec_model [] (Value.nil) 0).1 rfl,
   (c3_access_global_spec_model [("x", Value.number 5)] (Value.number 5) 0).2 rfl⟩

/-- C4 (counterexample): executing `Add` on two `Nil` operands does not
return a runtime-error result — the run panics (the process aborts), so no
`InterpretResult` is produced at all. -/
theorem c4_counterexample_panics_not_error_result :
    Vm.run 9 Vm.new chunkAddNils = .error (.panicked "Operands must be numbers") ∧
    runReturned (Vm.run 9 Vm.new chunkAddNils) = false :=
  ⟨rfl, rfl⟩

/-- C4 (amended): an arithmetic instruction whose operands are not both
numbers makes `Vm::run` panic with "Operands must be numbers" (negate:
"Operand must be a number"), terminating the process instead of returning
a runtime-error result; no coercion happens either way. -/
theorem c4_arith_type_error_panics (fuel : ℕ) (vm : Vm) (chunk : Chunk)
    (op : OpCode) (a b v : Value) (rest rest' : List Value) :
    (chunk.code[vm.ip]? = some op →
      (op = OpCode.add ∨ op = OpCode.subtract ∨ op = OpCode.multiply ∨
        op = OpCode.divide) →
      vm.stack = b :: a :: rest →
      (a.isNumber = false ∨ b.isNumber = false) →
      Vm.run (fuel + 1) vm chunk =
        .error (.panicked "Operands must be numbers")) ∧
    (chunk.code[vm.ip]? = some OpCode.negate →
      vm.stack = v :: rest' →
      v.isNumber = false →
      Vm.run (fuel + 1) vm chunk =
        .error (.panicked "Operand must be a number")) := by
  constructor
  · intro hop hmem hst hnum
    have hstep : Vm.step { vm with ip := vm.ip + 1 } chunk op =
        .panicked "Operands must be numbers" := by
      rcases hmem with rfl | rfl | rfl | rfl <;>
        (simp only [Vm.step, hst]
         cases a <;> cases b <;> simp_all [Value.isNumber])
    simp [Vm.run, Vm.runLoop, hop, hstep]
  · intro hop hst hnum
    have hstep : Vm.step { vm with ip := vm.ip + 1 } chunk .negate =
        .panicked "Operand must be a number" := by
      simp only [Vm.step, hst]
      cases v <;> simp_all [Value.isNumber]
    simp [Vm.run, Vm.runLoop, hop, hstep]

/-- C4 (witness): the amended theorem applied to `Add` over
`[Boolean(true), Number(1)]` and `Negate` over `[Boolean(true)]`. -/
theorem c4_witness :
    Vm.run 1 (⟨0, [Value.boolean true, Value.number 1], []⟩ : Vm) chunkAddEmpty =
      .error (.panicked "Operands must be numbers") ∧
    Vm.run 1 (⟨0, [Value.boolean true], []⟩ : Vm) chunkNegate =
      .error (.panicked "Operand must be a number") :=
  ⟨(c4_arith_type_error_panics 0 ⟨0, [Value.boolean true, Value.number 1], []⟩
      chunkAddEmpty .add (Value.number 1) (Value.boolean true) Value.nil [] []).1
      rfl (by simp) rfl (Or.inr rfl),
   (c4_arith_type_error_panics 0 ⟨0, [Value.boolean true], []⟩
      chunkNegate .negate Value.nil Value.nil (Value.boolean true) [] []).2
      rfl rfl rfl⟩

/-- C5 (counterexample): the chunk returned by a second `compile` on the
same compiler still holds the first compilation's instructions — compiling
`true` and then `false` returns `[Boolean(true), Pop, Boolean(false), Pop]`,
not `[Boolean(false), Pop]`. -/
theorem c5_counterexample_chunk_accumulates :
    Compiler.compile 32 tokensTrue Compiler.new =
      .ok (⟨[.boolean true, .pop], [], [1, 1]⟩, compilerAfterTrue) ∧
    (Compiler.compile 32 tokensFalse compilerAfterTrue).map (fun p => p.1.code) =
      .ok [OpCode.boolean true, .pop, .boolean false, .pop] ∧
    ([OpCode.boolean true, .pop, .boolean false, .pop] ≠
      [OpCode.boolean false, .pop]) :=
  ⟨rfl, rfl, by decide⟩

/-- C6 (counterexample): compiling `1 + 2 + 3` emits the constants for 1,
2 and 3 and only then the two additions — postfix `1 2 3 + +`, not the
claimed left-associative `1 2 + 3 +` order. -/
theorem c6_counterexample_right_assoc :
    (Compiler.compile 32 tokensPlusPlus Compiler.new).map (fun p => p.1.code) =
      .ok [OpCode.constant 0, .constant 1, .constant 2, .add, .add, .pop] ∧
    ([OpCode.constant 0, OpCode.constant 1, OpCode.constant 2, OpCode.add,
        OpCode.add, OpCode.pop] ≠
      [OpCode.constant 0, OpCode.constant 1, OpCode.add, OpCode.constant 2,
        OpCode.add, OpCode.pop]) :=
  ⟨rfl, by decide⟩

/-- C6 (amended): `binary` reparses the right operand at the operator's own
precedence, so `+` chains group to the right: `1 + 2 + 3` compiles to
postfix `1 2 3 + +` (grouping `1 + (2 + 3)`); and `-` has no infix-table
registration at all, so compiling `1 - 2 - 3` panics on the unwrap of the
missing handler instead of producing instructions. -/
theorem c6_plus_right_assoc_minus_unregistered :
    Compiler.compile 32 tokensPlusPlus Compiler.new =
      .ok (chunkPlusPlus, compilerAfterPlusPlus) ∧
    Compiler.compile 32 tokensMinus Compiler.new =
      .error (.panicked unwrapMsg) :=
  ⟨rfl, rfl⟩

/-- C7: `write_constant` appends the value at the end of the pool and the
emitted instruction's operand is exactly that position; both `write` and
`write_constant` preserve `lines.length = code.length`. -/
theorem c7_write_constant_index_and_lines (c : Chunk) (op : OpCode)
    (f : ℕ → OpCode) (v : Value) (line : ℕ) :
    (c.write_constant f v line).code = c.code ++ [f c.constants.length] ∧
    (c.write_constant f v line).constants = c.constants ++ [v] ∧
    (c.write_constant f v line).constants[c.constants.length]? = some v ∧
    (c.lines.length = c.code.length →
      (c.write op line).lines.length = (c.write op line).code.length ∧
      (c.write_constant f v line).lines.length =
        (c.write_constant f v line).code.length) := by
  refine ⟨rfl, rfl, ?_, fun h => ⟨?_, ?_⟩⟩
  · simp [Chunk.write_constant, List.getElem?_concat_length]
  · simp [Chunk.write, h]
  · simp [Chunk.write_constant, h]

/-- C7 (witness): the theorem applied to the empty chunk. -/
theorem c7_witness :
    (Chunk.new.write_constant OpCode.constant (Value.number 3) 1).constants[0]? =
      some (Value.number 3) ∧
    (Chunk.new.write OpCode.ret 1).lines.length =
      (Chunk.new.write OpCode.ret 1).code.length :=
  ⟨(c7_write_constant_index_and_lines Chunk.new .ret OpCode.constant
      (Value.number 3) 1).2.2.1,
   ((c7_write_constant_index_and_lines Chunk.new .ret OpCode.constant
      (Value.number 3) 1).2.2.2 rfl).1⟩

/-- C9: `Vm::run` is partial over arbitrary chunks — a chunk whose only
instruction is `Add`, run against an empty stack, panics on the unwrap of
the empty stack's pop instead of returning a runtime-error result. -/
theorem c9_run_panics_on_underflow :
    Vm.run 2 Vm.new chunkAddEmpty = .error (.panicked unwrapMsg) ∧
    runReturned (Vm.run 2 Vm.new chunkAddEmpty) = false :=
  ⟨rfl, rfl⟩

/-- C10: executing define-global for a name that is already bound silently
replaces that binding with the top of the stack (no error is reported: the
step continues), and every other binding's lookup is unchanged. -/
theorem c10_define_global_overwrites (vm : Vm) (chunk : Chunk) (i : ℕ)
    (n : String) (v w : Value) (rest : List Value)
    (hc : chunk.constants[i]? = some (.identifier n))
    (hs : vm.stack = v :: rest)
    (_hw : lookupGlobal vm.globals n = some w) :
    Vm.step vm chunk (.defineGlobalVariable i) =
      .next { vm with stack := rest, globals := insertGlobal vm.globals n v } ∧
    lookupGlobal (insertGlobal vm.globals n v) n = some v ∧
    (∀ m, m ≠ n →
      lookupGlobal (insertGlobal vm.globals n v) m = lookupGlobal vm.globals m) := by
  refine ⟨?_, lookupGlobal_insert_self _ _ _,
    fun m hm => lookupGlobal_insert_ne _ _ _ _ hm⟩
  simp [Vm.step, hc, hs]

/-- C10 (witness): redefining the bound `x` replaces it with the stack's
top and leaves `y` alone. -/
theorem c10_witness :
    Vm.step ⟨0, [Value.number 5], [("x", Value.number 1), ("y", Value.nil)]⟩
        chunkDefineX (.defineGlobalVariable 0) =
      .next ⟨0, [], [("x", Value.number 5), ("y", Value.nil)]⟩ ∧
    lookupGlobal [("x", Value.number 5), ("y", Value.nil)] "y" =
      lookupGlobal [("x", Value.number 1), ("y", Value.nil)] "y" :=
  ⟨(c10_define_global_overwrites
      ⟨0, [Value.number 5], [("x", Value.number 1), ("y", Value.nil)]⟩
      chunkDefineX 0 "x" (Value.number 5) (Value.number 1) [] rfl rfl rfl).1,
   (c10_define_global_overwrites
      ⟨0, [Value.number 5], [("x", Value.number 1), ("y", Value.nil)]⟩
      chunkDefineX 0 "x" (Value.number 5) (Value.number 1) [] rfl rfl rfl).2.2
      "y" (by decide)⟩

/-! ## Chunk growth through the compiler -/

theorem CExt.rfl (c : Compiler) : CExt c c :=
  ⟨List.prefix_rfl, List.prefix_rfl, id⟩

theorem CExt.trans {a b c : Compiler} (h1 : CExt a b) (h2 : CExt b c) :
    CExt a c :=
  ⟨h1.1.trans h2.1, h1.2.1.trans h2.2.1, fun hv => h2.2.2 (h1.2.2 hv)⟩

theorem CExt.of_chunk_eq {a b : Compiler} (h : b.chunk = a.chunk) :
    CExt a b := by
  unfold CExt
  rw [h]
  exact ⟨List.prefix_rfl, List.prefix_rfl, id⟩

theorem error_chunk (c : Compiler) (m : String) :
    (Compiler.error c m).chunk = c.chunk := by
  unfold Compiler.error
  split <;> rfl

theorem cext_error (c : Compiler) (m : String) : CExt c (Compiler.error c m) :=
  CExt.of_chunk_eq (error_chunk c m)

theorem cext_emit {c : Compiler} (op : OpCode) (line : ℕ)
    (hop : op.validIn c.chunk.constants.length = true) :
    CExt c (c.emit op line) :=
  ⟨⟨[op], rfl⟩, List.prefix_rfl, fun hv => Chunk.valid_write hv hop⟩

theorem cext_emitConstant {c : Compiler} (f : ℕ → OpCode) (v : Value)
    (line : ℕ)
    (hf : (f c.chunk.constants.length).validIn
      (c.chunk.constants.length + 1) = true) :
    CExt c (c.emitConstant f v line) :=
  ⟨⟨[f c.chunk.constants.length], rfl⟩, ⟨[v], rfl⟩,
   fun hv => Chunk.valid_write_constant hv hf⟩

theorem consume_chunk {c : Compiler} {t : Token}
    {r : Option (Token × SourceLocation)} {c' : Compiler}
    (h : Compiler.consume c t = .ok (r, c')) : c'.chunk = c.chunk := by
  unfold Compiler.consume at h
  split at h
  · cases h
  · split at h <;> cases h
    · rfl
    · exact error_chunk c _

theorem consume_current_token_chunk {c : Compiler}
    {tl : Token × SourceLocation} {c' : Compiler}
    (h : Compiler.consume_current_token c = .ok (tl, c')) :
    c'.chunk = c.chunk := by
  unfold Compiler.consume_current_token at h
  split at h <;> cases h
  rfl

theorem cext_literal {c c' : Compiler} (h : Compiler.literal c = .ok c') :
    CExt c c' := by
  unfold Compiler.literal at h
  split at h
  · cases h
  · rename_i heq
    have h1 := consume_current_token_chunk heq
    split at h <;> try cases h
    · exact (CExt.of_chunk_eq h1).trans (cext_emit _ _ rfl)
    · exact (CExt.of_chunk_eq h1).trans (cext_emit _ _ rfl)
    · exact (CExt.of_chunk_eq h1).trans (cext_emit _ _ rfl)
    · split at h <;> cases h
      exact (CExt.of_chunk_eq h1).trans
        (cext_emitConstant _ _ _ (by simp [OpCode.validIn]))

theorem cext_variableRef {c c' : Compiler}
    (h : Compiler.variableRef c = .ok c') : CExt c c' := by
  unfold Compiler.variableRef at h
  split at h
  · cases h
  · rename_i heq
    have h1 := consume_current_token_chunk heq
    split at h <;> cases h
    exact (CExt.of_chunk_eq h1).trans
      (cext_emitConstant _ _ _ (by simp [OpCode.validIn]))

theorem cext_runParselet {p : Parselet} {c c' : Compiler}
    (h : runParselet p c = .ok c') : CExt c c' := by
  cases p
  · exact cext_literal h
  · exact cext_variableRef h

theorem cext_parse (fuel : ℕ) :
    (∀ (prec : Int) (c c' : Compiler),
      Compiler.parse_precedence fuel prec c = .ok c' → CExt c c') ∧
    (∀ (prec : Int) (c c' : Compiler),
      Compiler.infixLoop fuel prec c = .ok c' → CExt c c') ∧
    (∀ (c c' : Compiler), Compiler.binary fuel c = .ok c' → CExt c c') := by
  induction fuel with
  | zero =>
      refine ⟨?_, ?_, ?_⟩
      · intro prec c c' h; cases h
      · intro prec c c' h; cases h
      · intro c c' h; cases h
  | succ fuel ih =>
      obtain ⟨ihp, ihl, ihb⟩ := ih
      refine ⟨?_, ?_, ?_⟩
      · intro prec c c' h
        unfold Compiler.parse_precedence at h
        split at h
        · cases h
        · split at h
          · cases h
            exact cext_error c _
          · split at h
            · cases h
            · rename_i hrun
              exact (cext_runParselet hrun).trans (ihl _ _ _ h)
      · intro prec c c' h
        unfold Compiler.infixLoop at h
        split at h
        · cases h
        · split at h
          · split at h
            · cases h
            · split at h
              · cases h
              · rename_i hbin
                exact (ihb _ _ hbin).trans (ihl _ _ _ h)
          · cases h
            exact CExt.rfl c
      · intro c c' h
        unfold Compiler.binary at h
        split at h
        · cases h
        · rename_i heq
          have h1 := consume_current_token_chunk heq
          split at h
          all_goals try cases h
          all_goals try
            (split at h
             · cases h
             · rename_i hpp
               cases h
               exact ((CExt.of_chunk_eq h1).trans (ihp _ _ _ hpp)).trans
                 (cext_emit _ _ rfl))

theorem cext_expression {fuel : ℕ} {c c' : Compiler}
    (h : Compiler.expression fuel c = .ok c') : CExt c c' :=
  (cext_parse fuel).1 _ _ _ h

theorem cext_print_statement {fuel : ℕ} {c c' : Compiler}
    (h : Compiler.print_statement fuel c = .ok c') : CExt c c' := by
  unfold Compiler.print_statement at h
  split at h
  · cases h
  · rename_i hcons
    split at h
    · cases h
    · rename_i hexp
      split at h <;> cases h
      exact ((CExt.of_chunk_eq (consume_chunk hcons)).trans
        (cext_expression hexp)).trans (cext_emit _ _ rfl)

theorem cext_expression_statement {fuel : ℕ} {c c' : Compiler}
    (h : Compiler.expression_statement fuel c = .ok c') : CExt c c' := by
  unfold Compiler.expression_statement at h
  split at h
  · cases h
  · rename_i hexp
    split at h <;> cases h
    exact (cext_expression hexp).trans (cext_emit _ _ rfl)

theorem cext_let_declaration {fuel : ℕ} {c c' : Compiler}
    (h : Compiler.let_declaration fuel c = .ok c') : CExt c c' := by
  unfold Compiler.let_declaration at h
  split at h
  · cases h
  · rename_i hlet
    split at h
    · cases h
    · rename_i hid
      split at h
      · cases h
      · rename_i hassign
        split at h
        · cases h
        · rename_i hexp
          cases h
          exact ((((CExt.of_chunk_eq (consume_chunk hlet)).trans
            (CExt.of_chunk_eq (consume_chunk hid))).trans
            (CExt.of_chunk_eq (consume_chunk hassign))).trans
            (cext_expression hexp)).trans
            (cext_emitConstant _ _ _ (by simp [OpCode.validIn]))
    · rename_i hid
      cases h
      exact (CExt.of_chunk_eq (consume_chunk hlet)).trans
        (CExt.of_chunk_eq (consume_chunk hid))

theorem synchronizeLoop_chunk : ∀ (fuel : ℕ) (c c' : Compiler),
    Compiler.synchronizeLoop fuel c = .ok c' → c'.chunk = c.chunk := by
  intro fuel
  induction fuel with
  | zero => intro c c' h; cases h
  | succ fuel ih =>
      intro c c' h
      unfold Compiler.synchronizeLoop at h
      split at h
      · cases h
      · split at h
        all_goals first
          | (cases h; rfl)
          | exact (ih _ _ h).trans rfl

theorem synchronize_chunk {fuel : ℕ} {c c' : Compiler}
    (h : Compiler.synchronize fuel c = .ok c') : c'.chunk = c.chunk := by
  unfold Compiler.synchronize at h
  exact (synchronizeLoop_chunk fuel _ _ h).trans rfl

theorem cext_compileLoop : ∀ (fuel : ℕ) (c : Compiler) (k : Chunk)
    (c' : Compiler), Compiler.compileLoop fuel c = .ok (k, c') →
    CExt c c' ∧ k = c'.chunk := by
  intro fuel
  induction fuel with
  | zero => intro c k c' h; cases h
  | succ fuel ih =>
      intro c k c' h
      unfold Compiler.compileLoop at h
      split at h
      · cases h
      · rename_i c1 hsync
        split at h
        · cases h
        · split at h
          · cases h
            refine ⟨?_, rfl⟩
            split at hsync
            · exact CExt.of_chunk_eq (synchronize_chunk hsync)
            · cases hsync
              exact CExt.rfl _
          · split at h
            · cases h
            · rename_i hstmt
              obtain ⟨hext, rfl⟩ := ih _ _ _ h
              refine ⟨?_, rfl⟩
              have hc1 : CExt c c1 := by
                split at hsync
                · exact CExt.of_chunk_eq (synchronize_chunk hsync)
                · cases hsync
                  exact CExt.rfl _
              exact (hc1.trans (cext_print_statement hstmt)).trans hext
          · split at h
            · cases h
            · rename_i hstmt
              obtain ⟨hext, rfl⟩ := ih _ _ _ h
              refine ⟨?_, rfl⟩
              have hc1 : CExt c c1 := by
                split at hsync
                · exact CExt.of_chunk_eq (synchronize_chunk hsync)
                · cases hsync
                  exact CExt.rfl _
              exact (hc1.trans (cext_let_declaration hstmt)).trans hext
          · cases h
          · split at h
            · cases h
            · rename_i hstmt
              obtain ⟨hext, rfl⟩ := ih _ _ _ h
              refine ⟨?_, rfl⟩
              have hc1 : CExt c c1 := by
                split at hsync
                · exact CExt.of_chunk_eq (synchronize_chunk hsync)
                · cases hsync
                  exact CExt.rfl _
              exact (hc1.trans (cext_expression_statement hstmt)).trans hext

theorem cext_compile {fuel : ℕ} {tokens : List (Token × SourceLocation)}
    {c : Compiler} {k : Chunk} {c' : Compiler}
    (h : Compiler.compile fuel tokens c = .ok (k, c')) :
    CExt c c' ∧ k = c'.chunk := by
  unfold Compiler.compile at h
  obtain ⟨hext, rfl⟩ := cext_compileLoop fuel _ _ _ h
  exact ⟨(CExt.of_chunk_eq (by simp [Compiler.reset])).trans hext, rfl⟩

/-- C5 (amended): `reset` does clear the cursor and the error flag, but the
chunk is retained and reused, not handed off: `compile` returns a clone of
the accumulating chunk, so the chunk of any successful compile extends the
compiler's previous chunk — in particular a second compile's result still
contains the first compilation's instructions as a prefix. -/
theorem c5_reset_clears_but_chunk_reused :
    (∀ c : Compiler, (Compiler.reset c).position = 0 ∧
      (Compiler.reset c).is_in_error_state = false ∧
      (Compiler.reset c).chunk = c.chunk) ∧
    (∀ (fuel : ℕ) (tokens : List (Token × SourceLocation)) (c : Compiler)
        (k : Chunk) (c' : Compiler),
      Compiler.compile fuel tokens c = .ok (k, c') →
      c.chunk.code <+: k.code ∧ c.chunk.constants <+: k.constants) := by
  refine ⟨fun c => ⟨rfl, rfl, rfl⟩, ?_⟩
  intro fuel tokens c k c' h
  obtain ⟨hext, rfl⟩ := cext_compile h
  exact ⟨hext.1, hext.2.1⟩

/-- C5 (witness): the amended theorem at the concrete second compilation of
`c5_counterexample_chunk_accumulates`. -/
theorem c5_witness :
    (Compiler.reset compilerAfterTrue).position = 0 ∧
    compilerAfterTrue.chunk.code <+: chunkTrueFalse.code :=
  ⟨(c5_reset_clears_but_chunk_reused.1 compilerAfterTrue).1,
   (c5_reset_clears_but_chunk_reused.2 32 tokensFalse compilerAfterTrue
      chunkTrueFalse compilerAfterTrueFalse rfl).1⟩

/-- C8: a successful `compile` from a compiler whose accumulated chunk is
valid returns a valid chunk — every constant-carrying instruction's index
is strictly below the constant pool's length (`Compiler::new` starts from
the empty, vacuously valid chunk). -/
theorem c8_compile_chunk_valid (fuel : ℕ)
    (tokens : List (Token × SourceLocation)) (c : Compiler) (k : Chunk)
    (c' : Compiler) (h : Compiler.compile fuel tokens c = .ok (k, c'))
    (hv : c.chunk.valid = true) : k.valid = true := by
  obtain ⟨hext, rfl⟩ := cext_compile h
  exact hext.2.2 hv

/-- C8 (witness): the theorem applied to the compilation of `tokensTrue`
from a fresh compiler. -/
theorem c8_witness : (⟨[.boolean true, .pop], [], [1, 1]⟩ : Chunk).valid = true :=
  c8_compile_chunk_valid 32 tokensTrue Compiler.new
    ⟨[.boolean true, .pop], [], [1, 1]⟩ compilerAfterTrue rfl rfl
